import Mathlib

/-!
# Shallow embedding of the NKN block-validation core

This file embeds, in Lean 4, the Go sources of the NKN node slice under
verification: the `Subscribe` payload codec (`payload` package), the block
admission engine (`ledger` package: `TransactionCheck`, `HeaderCheck`,
`TimestampCheck`), and the helper codecs they rely on.

Go byte slices are modelled as `List Nat` (each element one byte, `< 256`
where it matters); Go strings are modelled by their raw byte content;
machine integers are `Nat`/`Int` with explicit `% 2 ^ w` where overflow can
occur; fallible Go calls return `Except`.  External collaborators (the
ledger store, the crypto provider, the per-transaction validator oracles)
are passed in explicitly as function-valued parameters, mirroring the
read-only contract the source demands of them.
-/

namespace NKN

/-- A Go byte slice: a list of byte values. -/
abbrev Bytes := List Nat

/-- An abstract 32-byte hash, modelled as an opaque identifier. -/
abbrev Hash := Nat

/-- A Go `error` value, modelled by its message. -/
abbrev GoErr := String

/-! ## Varint codec

Modelled from the spec: the `common/serialization` package is not among the
source files under verification; §4.1 of the spec fixes its contract
(length-byte-prefixed unsigned varint, little-endian fixed-width `u32`,
UTF-8 validation on `read_varstring`, a length cap on `read_varbytes`). -/

/-- Codec-level errors (spec §4.1 / §7). -/
inductive SerErr
  | truncated
  | lengthTooLarge
  | invalidUtf8
deriving DecidableEq

/-- Modelled from the spec: `write_varuint` — length-byte-prefixed unsigned
varint: values below `0xFD` in one byte, else a marker byte (`0xFD`/`0xFE`/
`0xFF`) followed by the value little-endian in 2, 4 or 8 bytes. -/
def WriteVarUint (n : Nat) : Bytes :=
  if n < 253 then [n]
  else if n ≤ 65535 then [253, n % 256, n / 256 % 256]
  else if n ≤ 4294967295 then
    [254, n % 256, n / 256 % 256, n / 65536 % 256, n / 16777216 % 256]
  else
    [255, n % 256, n / 256 % 256, n / 65536 % 256, n / 16777216 % 256,
     n / 4294967296 % 256, n / 1099511627776 % 256,
     n / 281474976710656 % 256, n / 72057594037927936 % 256]

/-- Modelled from the spec: `read_varuint`, the inverse direction of
`WriteVarUint`; fails `truncated` when the stream ends early. -/
def ReadVarUint : Bytes → Except SerErr (Nat × Bytes)
  | [] => .error .truncated
  | b :: r =>
    if b < 253 then .ok (b, r)
    else if b = 253 then
      match r with
      | b0 :: b1 :: r2 => .ok (b0 + b1 * 256, r2)
      | _ => .error .truncated
    else if b = 254 then
      match r with
      | b0 :: b1 :: b2 :: b3 :: r4 =>
          .ok (b0 + b1 * 256 + b2 * 65536 + b3 * 16777216, r4)
      | _ => .error .truncated
    else
      match r with
      | b0 :: b1 :: b2 :: b3 :: b4 :: b5 :: b6 :: b7 :: r8 =>
          .ok (b0 + b1 * 256 + b2 * 65536 + b3 * 16777216 +
               b4 * 4294967296 + b5 * 1099511627776 +
               b6 * 281474976710656 + b7 * 72057594037927936, r8)
      | _ => .error .truncated

/-- Read exactly `n` bytes from the stream; fail `truncated` on early EOF. -/
def readFull : Nat → Bytes → Except SerErr (Bytes × Bytes)
  | 0, l => .ok ([], l)
  | _ + 1, [] => .error .truncated
  | n + 1, b :: r =>
    match readFull n r with
    | .ok (bs, rest) => .ok (b :: bs, rest)
    | .error e => .error e

/-- Modelled from the spec: cap on a varbytes length (32 MiB, §4.1). -/
def MaxVarBytesLen : Nat := 33554432

/-- Modelled from the spec: `write_varbytes` — varint length then raw bytes. -/
def WriteVarBytes (bs : Bytes) : Bytes :=
  WriteVarUint bs.length ++ bs

/-- Modelled from the spec: `read_varbytes` — read a varint length `n`,
fail `lengthTooLarge` past the cap, then read exactly `n` bytes. -/
def ReadVarBytes (l : Bytes) : Except SerErr (Bytes × Bytes) :=
  match ReadVarUint l with
  | .error e => .error e
  | .ok (n, r) =>
    if n > MaxVarBytesLen then .error .lengthTooLarge
    else readFull n r

/-- Is `b` a UTF-8 continuation byte (`0x80`–`0xBF`)? -/
def isCont (b : Nat) : Bool := 128 ≤ b && b ≤ 191

/-- RFC 3629 UTF-8 validity of a byte sequence. -/
def validUtf8 : Bytes → Bool
  | [] => true
  | b :: r =>
    if b < 128 then validUtf8 r
    else if 194 ≤ b && b ≤ 223 then
      match r with
      | b1 :: r1 => isCont b1 && validUtf8 r1
      | [] => false
    else if b = 224 then
      match r with
      | b1 :: b2 :: r2 => (160 ≤ b1 && b1 ≤ 191) && isCont b2 && validUtf8 r2
      | _ => false
    else if 225 ≤ b && b ≤ 236 then
      match r with
      | b1 :: b2 :: r2 => isCont b1 && isCont b2 && validUtf8 r2
      | _ => false
    else if b = 237 then
      match r with
      | b1 :: b2 :: r2 => (128 ≤ b1 && b1 ≤ 159) && isCont b2 && validUtf8 r2
      | _ => false
    else if 238 ≤ b && b ≤ 239 then
      match r with
      | b1 :: b2 :: r2 => isCont b1 && isCont b2 && validUtf8 r2
      | _ => false
    else if b = 240 then
      match r with
      | b1 :: b2 :: b3 :: r3 =>
          (144 ≤ b1 && b1 ≤ 191) && isCont b2 && isCont b3 && validUtf8 r3
      | _ => false
    else if 241 ≤ b && b ≤ 243 then
      match r with
      | b1 :: b2 :: b3 :: r3 => isCont b1 && isCont b2 && isCont b3 && validUtf8 r3
      | _ => false
    else if b = 244 then
      match r with
      | b1 :: b2 :: b3 :: r3 =>
          (128 ≤ b1 && b1 ≤ 143) && isCont b2 && isCont b3 && validUtf8 r3
      | _ => false
    else false

/-- Modelled from the spec: `write_varstring` — the string's bytes,
varint-length-prefixed (writing does not validate). -/
def WriteVarString (s : Bytes) : Bytes := WriteVarBytes s

/-- Modelled from the spec: `read_varstring` — `read_varbytes` followed by
UTF-8 validation; fails `invalidUtf8` otherwise. -/
def ReadVarString (l : Bytes) : Except SerErr (Bytes × Bytes) :=
  match ReadVarBytes l with
  | .error e => .error e
  | .ok (bs, r) => if validUtf8 bs then .ok (bs, r) else .error .invalidUtf8

/-- Modelled from the spec: `write_u32` — little-endian, fixed 4 bytes. -/
def WriteUint32 (x : Nat) : Bytes :=
  [x % 256, x / 256 % 256, x / 65536 % 256, x / 16777216 % 256]

/-- Modelled from the spec: `read_u32` — little-endian, fixed 4 bytes. -/
def ReadUint32 : Bytes → Except SerErr (Nat × Bytes)
  | b0 :: b1 :: b2 :: b3 :: r =>
      .ok (b0 + b1 * 256 + b2 * 65536 + b3 * 16777216, r)
  | _ => .error .truncated

/-! ## Hex codec

Modelled from the spec: `common.BytesToHexString` / `common.HexStringToBytes`
are not among the source files under verification.  The spec fixes lowercase
hex with no prefix on output (§6), and that a malformed hex subscriber field
decodes to the empty byte-string with the error discarded (§4.2, §9). -/

/-- Hex digit character (as a byte) for a nibble value. -/
def hexChar (d : Nat) : Nat := if d < 10 then 48 + d else 87 + d

/-- Value of a hex digit character; accepts both cases. -/
def hexVal (c : Nat) : Option Nat :=
  if 48 ≤ c ∧ c ≤ 57 then some (c - 48)
  else if 97 ≤ c ∧ c ≤ 102 then some (c - 87)
  else if 65 ≤ c ∧ c ≤ 70 then some (c - 55)
  else none

/-- Modelled from the spec: lowercase hex encoding of a byte string. -/
def BytesToHexString (bs : Bytes) : Bytes :=
  bs.flatMap fun b => [hexChar (b / 16), hexChar (b % 16)]

/-- Strict hex decoding: `none` on odd length or a non-hex character. -/
def hexDecode : Bytes → Option Bytes
  | [] => some []
  | [_] => none
  | c1 :: c2 :: r =>
    match hexVal c1, hexVal c2, hexDecode r with
    | some v1, some v2, some bs => some ((v1 * 16 + v2) :: bs)
    | _, _, _ => none

/-- Modelled from the spec: `common.HexStringToBytes` returns the decoded
bytes and a success flag; on malformed hex it yields the empty byte-string
(the spec notes the caller discards the error, §9). -/
def HexStringToBytes (s : Bytes) : Bytes × Bool :=
  match hexDecode s with
  | some bs => (bs, true)
  | none => ([], false)

/-! ## Subscribe payload (source file: `payload` package) -/

/-- The `Subscribe` payload record.  Go strings are modelled by their raw
byte content. -/
structure Subscribe where
  Subscriber : Bytes
  Identifier : Bytes
  Topic : Bytes
  Bucket : Nat
  Duration : Nat
deriving DecidableEq

/-- `Subscribe.Serialize`: emit `{subscriber, identifier, topic, bucket,
duration}` in order with the codec (the Go writer to a byte buffer cannot
fail, so the output is the raw byte stream). -/
def Subscribe.Serialize (s : Subscribe) : Bytes :=
  WriteVarBytes s.Subscriber ++ WriteVarString s.Identifier ++
    WriteVarString s.Topic ++ WriteUint32 s.Bucket ++ WriteUint32 s.Duration

/-- `Subscribe.Deserialize`: read the five fields in order; each field's
failure is tagged with the field name, as in the source. -/
def Subscribe.Deserialize (l : Bytes) : Except String (Subscribe × Bytes) :=
  match ReadVarBytes l with
  | .error _ => .error "[Subscribe], Subscriber Deserialize failed."
  | .ok (sub, l1) =>
    match ReadVarString l1 with
    | .error _ => .error "[Subscribe], Identifier Deserialize failed."
    | .ok (idf, l2) =>
      match ReadVarString l2 with
      | .error _ => .error "[Subscribe], Topic Deserialize failed."
      | .ok (top, l3) =>
        match ReadUint32 l3 with
        | .error _ => .error "[Subscribe], Bucket Deserialize failed."
        | .ok (bkt, l4) =>
          match ReadUint32 l4 with
          | .error _ => .error "[Subscribe], Duration Deserialize failed."
          | .ok (dur, l5) => .ok (⟨sub, idf, top, bkt, dur⟩, l5)

/-- `Subscribe.Equal`: byte-exact subscriber, exact identifier/topic,
numeric bucket/duration. -/
def Subscribe.Equal (s s2 : Subscribe) : Bool :=
  s.Subscriber == s2.Subscriber && s.Identifier == s2.Identifier &&
    s.Topic == s2.Topic && s.Bucket == s2.Bucket && s.Duration == s2.Duration

/-- The intermediate JSON record `SubscribeInfo`: subscriber as a hex
string, the rest verbatim. -/
structure SubscribeInfo where
  Subscriber : Bytes
  Identifier : Bytes
  Topic : Bytes
  Bucket : Nat
  Duration : Nat
deriving DecidableEq

/-- `Subscribe.MarshalJson`: build a `SubscribeInfo` with the hex-encoded
subscriber and marshal it.  `encoding/json` is the Go standard library, not
repository code; on this record shape its marshal/unmarshal pair is the
identity, so the JSON document is modelled by the `SubscribeInfo` itself. -/
def Subscribe.MarshalJson (s : Subscribe) : SubscribeInfo :=
  ⟨BytesToHexString s.Subscriber, s.Identifier, s.Topic, s.Bucket, s.Duration⟩

/-- `Subscribe.UnmarshalJson`: unmarshal a `SubscribeInfo` (stdlib JSON,
modelled as above) and rebuild the `Subscribe`; the hex-decode error on the
subscriber field is discarded, as in the source (`s.Subscriber, _ = ...`). -/
def Subscribe.UnmarshalJson (si : SubscribeInfo) : Subscribe :=
  ⟨(HexStringToBytes si.Subscriber).1, si.Identifier, si.Topic,
    si.Bucket, si.Duration⟩

/-- Well-formedness of a `Subscribe` value as the spec's data model states
it (§3): subscriber bytes, UTF-8 string fields, `u32` numerics. -/
def Subscribe.WF (s : Subscribe) : Prop :=
  (∀ b ∈ s.Subscriber, b < 256) ∧ validUtf8 s.Identifier = true ∧
    validUtf8 s.Topic = true ∧ s.Bucket < 4294967296 ∧ s.Duration < 4294967296

instance (s : Subscribe) : Decidable s.WF := by
  unfold Subscribe.WF; infer_instance

/-! ## Ledger data model (source file: `ledger` package) -/

/-- `GenesisBlockProposedHeight` constant (source: `= 4`). -/
def GenesisBlockProposedHeight : Nat := 4

/-- `TimestampTolerance` constant, in seconds (source: `40 * time.Second`;
the embedding works at second granularity). -/
def TimestampTolerance : Int := 40

/-- The winner-type tag of a block header.  The source names only
`GenesisSigner` and `TxnSigner`; `Other` stands for any further value of
the underlying integer tag. -/
inductive WinnerType
  | GenesisSigner
  | TxnSigner
  | Other (n : Nat)
deriving DecidableEq

/-- Transaction type tag; only `Coinbase` is inspected by the engine. -/
inductive TxType
  | Coinbase
  | OtherTx (n : Nat)
deriving DecidableEq

/-- Transaction payload: the engine type-asserts against the `Commit`
variant carrying the raw sigchain bytes; anything else is `OtherPayload`. -/
inductive TxPayload
  | Commit (sigChain : Bytes)
  | OtherPayload (n : Nat)
deriving DecidableEq

/-- A transaction, reduced to the fields the admission engine inspects. -/
structure Transaction where
  TxType : TxType
  Payload : TxPayload
deriving DecidableEq

/-- A block header, with the fields `HeaderCheck` inspects.  `Height` is a
`u32`; `Timestamp` is an `i64` of Unix seconds. -/
structure Header where
  PrevBlockHash : Hash
  Height : Nat
  Timestamp : Int
  WinnerHash : Hash
  WinnerType : WinnerType
  Signer : Bytes
  Signature : Bytes
deriving DecidableEq

/-- A block.  `Transactions` is `none` for a nil Go slice and
`some l` for a non-nil slice with elements `l` (a non-nil empty slice is
`some []`); the two are distinguishable in Go (`== nil`). -/
structure Block where
  Header : Header
  Transactions : Option (List Transaction)
deriving DecidableEq

/-- A decoded sigchain.  The engine treats it as opaque and only hands it
to `GetMiner`; `data` carries whatever the decoder produced. -/
structure SigChain where
  data : Bytes
deriving DecidableEq

/-- The zero value `&por.SigChain{}` that `proto.Unmarshal` leaves behind
when decoding fails (its error being discarded by the source). -/
def SigChain.zero : SigChain := ⟨[]⟩

/-- The read-only environment `HeaderCheck` consults: the chain read
interface (spec §4.3), the crypto provider, the sigchain decoder and the
engine's clock and configuration.  All are explicit parameters: the source
reaches them through the `DefaultLedger` singleton, `por`, `crypto` and
`config` packages. -/
structure ChainEnv where
  GetHeader : Hash → Except GoErr (Option Header)
  GetBlockHash : Nat → Except GoErr Hash
  GetBlock : Hash → Except GoErr Block
  GetBlockTime : Hash → Except GoErr Int
  GetTransaction : Hash → Except GoErr Transaction
  GetSigner : Block → Except GoErr (Bytes × Bytes)
  GetMiner : SigChain → Except GoErr (Bytes × Bytes)
  protoUnmarshal : Bytes → Option SigChain
  DecodePoint : Bytes → Except GoErr Nat
  Verify : Nat → Bytes → Bytes → Except GoErr Unit
  GetHashForSigning : Header → Bytes
  now : Int
  ProposerChangeTime : Int

/-- The distinct error outcomes of `HeaderCheck`, one constructor per
`errors.New` / propagation site in the source. -/
inductive HErr
  | prevHeaderMissing
  | invalidPrevHeader
  | invalidHeaderHeight
  | postdatedTimestamp
  | invalidHeaderTimestamp
  | invalidWinnerType
  | invalidTransactionType
  | invalidSigner (signer : Bytes)
  | propagated (e : GoErr)
deriving DecidableEq

/-- The proposer-election block of `HeaderCheck` (source lines 114–172):
on `timeDiff ≥ timeSlot` the fallback path reloads the block at the frozen
snapshot height `0` and returns its signer; otherwise it dispatches on the
predecessor's winner-type.  The `switch` has no `default` case, so an
unlisted winner-type leaves `publicKey` and `chordID` at their nil zero
values and the election returns `([], [])`. -/
def ProposerElection (env : ChainEnv) (prevHeader : Header)
    (genesisBlock : Block) (timeDiff timeSlot : Int) :
    Except HErr (Bytes × Bytes) :=
  if timeDiff ≥ timeSlot then
    -- "This is a temporary solution": proposerBlockHeight := 0
    match env.GetBlockHash 0 with
    | .error e => .error (.propagated e)
    | .ok proposerBlockHash =>
      match env.GetBlock proposerBlockHash with
      | .error e => .error (.propagated e)
      | .ok proposerBlock =>
        match env.GetSigner proposerBlock with
        | .error e => .error (.propagated e)
        | .ok pc => .ok pc
  else
    match prevHeader.WinnerType with
    | .GenesisSigner =>
      match env.GetSigner genesisBlock with
      | .error e => .error (.propagated e)
      | .ok pc => .ok pc
    | .TxnSigner =>
      match env.GetTransaction prevHeader.WinnerHash with
      | .error e => .error (.propagated e)
      | .ok txn =>
        match txn.Payload with
        | .Commit sigChainBytes =>
          -- proto.Unmarshal's error is discarded by the source
          match env.GetMiner
              ((env.protoUnmarshal sigChainBytes).getD SigChain.zero) with
          | .error e => .error (.propagated e)
          | .ok pc => .ok pc
        | _ => .error .invalidTransactionType
    | .Other _ => .ok ([], [])

/-- `HeaderCheck(header, receiveTime)`: the phased header admission of the
source (lines 69–190).  `u32` height arithmetic wraps modulo `2 ^ 32`; the
timestamp window works at second granularity.  `bytes.Compare` treats a nil
and an empty slice alike, which list equality on `Bytes` mirrors. -/
def HeaderCheck (env : ChainEnv) (header : Header) (receiveTime : Int) :
    Except HErr Unit :=
  if header.Height = 0 then .ok ()
  else
    match env.GetHeader header.PrevBlockHash with
    | .error _ => .error .prevHeaderMissing
    | .ok none => .error .invalidPrevHeader
    | .ok (some prevHeader) =>
      if (prevHeader.Height + 1) % 4294967296 ≠ header.Height then
        .error .invalidHeaderHeight
      else if header.Timestamp > env.now + TimestampTolerance then
        .error .postdatedTimestamp
      else if prevHeader.Timestamp ≥ header.Timestamp then
        .error .invalidHeaderTimestamp
      else if header.WinnerType = .GenesisSigner ∧
          header.Height ≥ GenesisBlockProposedHeight then
        .error .invalidWinnerType
      else
        match env.GetBlockHash 0 with
        | .error e => .error (.propagated e)
        | .ok genesisBlockHash =>
          match env.GetBlock genesisBlockHash with
          | .error e => .error (.propagated e)
          | .ok genesisBlock =>
            match env.GetBlockTime header.PrevBlockHash with
            | .error e => .error (.propagated e)
            | .ok prevTimestamp =>
              -- timeDiff: 0 when prevTimestamp equals the genesis timestamp
              match ProposerElection env prevHeader genesisBlock
                  (if prevTimestamp = genesisBlock.Header.Timestamp then 0
                   else receiveTime - prevTimestamp)
                  env.ProposerChangeTime with
              | .error e => .error e
              | .ok (publicKey, _chordID) =>
                if publicKey ≠ header.Signer then
                  .error (.invalidSigner header.Signer)
                else
                  match env.DecodePoint publicKey with
                  | .error e => .error (.propagated e)
                  | .ok rawPubKey =>
                    match env.Verify rawPubKey
                        (env.GetHashForSigning header) header.Signature with
                    | .error e => .error (.propagated e)
                    | .ok _ => .ok ()

/-! ## Transaction check (source lines 44–67) -/

/-- Error codes of the transaction validator oracles. -/
abbrev ErrCode := Nat

/-- `ErrNoError`. -/
def ErrNoError : ErrCode := 0

/-- Outcome of `TransactionCheck`: a normal Go error return, or a runtime
panic (which the Go function can raise by indexing an empty slice). -/
inductive TxCheckResult
  | ok
  | goError (msg : String)
  | goPanic (msg : String)
deriving DecidableEq

/-- The `for i, txn := range block.Transactions` loop of the source: at
each index, first the duplicate-coinbase check (skipped at index 0), then
the stateless and the historical validator oracles. -/
def TransactionCheckLoop
    (verifyTransaction verifyTransactionWithLedger : Transaction → ErrCode) :
    Nat → List Transaction → TxCheckResult
  | _, [] => .ok
  | i, txn :: rest =>
    if i ≠ 0 ∧ txn.TxType = .Coinbase then
      .goError "Coinbase transaction order is incorrect"
    else if verifyTransaction txn ≠ ErrNoError then
      .goError "transaction sanity check failed"
    else if verifyTransactionWithLedger txn ≠ ErrNoError then
      .goError "transaction history check failed"
    else
      TransactionCheckLoop verifyTransaction verifyTransactionWithLedger
        (i + 1) rest

/-- `TransactionCheck(block)`.  The source checks `block.Transactions ==
nil` and then indexes `block.Transactions[0]`: a non-nil empty slice passes
the nil check and the indexing panics (index out of range), which the
`goPanic` outcome records.  The three validator functions are the external
oracles of spec §6. -/
def TransactionCheck
    (verifyTransaction verifyTransactionWithLedger : Transaction → ErrCode)
    (verifyTransactionWithBlock : List Transaction → ErrCode)
    (block : Block) : TxCheckResult :=
  match block.Transactions with
  | none => .goError "empty block"
  | some txns =>
    match txns with
    | [] => .goPanic "runtime error: index out of range"
    | t0 :: _ =>
      if t0.TxType ≠ .Coinbase then
        .goError "first transaction in block is not Coinbase"
      else
        match TransactionCheckLoop verifyTransaction
            verifyTransactionWithLedger 0 txns with
        | .ok =>
          if verifyTransactionWithBlock txns ≠ ErrNoError then
            .goError "transaction block check failed"
          else .ok
        | r => r

/-! ## Timestamp check (source lines 192–202) -/

/-- `TimestampCheck(timestamp)`: the standalone tolerance window.  The
source reads `time.Now()`; the embedding passes `now` explicitly, at
second granularity. -/
def TimestampCheck (now timestamp : Int) : Except String Unit :=
  if timestamp < now - TimestampTolerance ∨
      timestamp > now + TimestampTolerance then
    .error "timestamp exceed my tolerance"
  else .ok ()

/-! ## Concrete instances

A small concrete chain view and a family of concrete headers, blocks and
transactions, used to evaluate the engine at explicit inputs. -/

/-- Genesis header of the concrete chain: height `0`, timestamp `10`,
signer `[1]`. -/
def gbHeaderW : Header := ⟨0, 0, 10, 0, .GenesisSigner, [1], []⟩

/-- Genesis block of the concrete chain (stored at hash `5`). -/
def gbW : Block := ⟨gbHeaderW, some []⟩

/-- A predecessor at height 2, timestamp 10, winner-type `TxnSigner` with
winner hash `7` (a commit transaction whose sigchain bytes decode). -/
def prevTxnW : Header := ⟨0, 2, 10, 7, .TxnSigner, [], []⟩

/-- A predecessor at height 2 whose winner-type is the unlisted tag
`Other 5`. -/
def prevOtherW : Header := ⟨0, 2, 10, 7, .Other 5, [], []⟩

/-- A predecessor at height 2 with winner-type `GenesisSigner`. -/
def prevGenW : Header := ⟨0, 2, 10, 7, .GenesisSigner, [], []⟩

/-- A predecessor at height 3 (so its successor has height 4). -/
def prevH3W : Header := ⟨0, 3, 10, 7, .GenesisSigner, [], []⟩

/-- A predecessor at height 2, winner-type `TxnSigner`, winner hash `9`
(a commit transaction whose sigchain bytes fail to decode). -/
def prevTxn9W : Header := ⟨0, 2, 10, 9, .TxnSigner, [], []⟩

/-- A commit transaction with decodable sigchain bytes `[9]`. -/
def txnCommitW : Transaction := ⟨.OtherTx 1, .Commit [9]⟩

/-- A commit transaction with undecodable sigchain bytes `[13]`. -/
def txnCommit13W : Transaction := ⟨.OtherTx 1, .Commit [13]⟩

/-- The concrete chain view.  Hash `1`/`2`/`3`/`4` store the predecessor
headers above, hash `5` the genesis block; every block at those hashes has
timestamp `10` (equal to the genesis timestamp); the genesis signer is
`[1]`, the sigchain miner `[2]`; the proposer change time is `60` seconds
and the local clock reads `1000`. -/
def envW : ChainEnv where
  GetHeader := fun h =>
    if h = 1 then .ok (some prevTxnW)
    else if h = 2 then .ok (some prevOtherW)
    else if h = 3 then .ok (some prevGenW)
    else if h = 4 then .ok (some prevH3W)
    else if h = 6 then .ok (some prevTxn9W)
    else .error "leveldb: not found"
  GetBlockHash := fun n => if n = 0 then .ok 5 else .error "leveldb: not found"
  GetBlock := fun h => if h = 5 then .ok gbW else .error "leveldb: not found"
  GetBlockTime := fun h => if h ≤ 6 then .ok 10 else .error "leveldb: not found"
  GetTransaction := fun h =>
    if h = 7 then .ok txnCommitW
    else if h = 9 then .ok txnCommit13W
    else .error "leveldb: not found"
  GetSigner := fun b => if b = gbW then .ok ([1], [4]) else .error "no signer"
  GetMiner := fun _ => .ok ([2], [3])
  protoUnmarshal := fun b => if b = [9] then some ⟨[9]⟩ else none
  DecodePoint := fun _ => .ok 0
  Verify := fun _ _ _ => .ok ()
  GetHashForSigning := fun _ => []
  now := 1000
  ProposerChangeTime := 60

/-- Candidate header at height 3 above the `TxnSigner` predecessor (hash
`1`), signed by the sigchain miner `[2]`. -/
def hdrC2W : Header := ⟨1, 3, 11, 0, .TxnSigner, [2], []⟩

/-- Candidate header at height 3 above the `GenesisSigner` predecessor
(hash `3`), signed by `[2]`, which is not the genesis signer `[1]`. -/
def hdrC2aW : Header := ⟨3, 3, 11, 0, .TxnSigner, [2], []⟩

/-- Candidate header at height 3 above the `Other 5` predecessor (hash
`2`), with a non-empty signer `[1]`. -/
def hdrC4W : Header := ⟨2, 3, 11, 0, .TxnSigner, [1], []⟩

/-- Candidate header at height 4 with winner-type `GenesisSigner`, above
the height-3 predecessor (hash `4`). -/
def hdrC5W : Header := ⟨4, 4, 11, 0, .GenesisSigner, [1], []⟩

/-- A validator oracle that accepts every transaction. -/
def zeroOracle : Transaction → ErrCode := fun _ => ErrNoError

/-- A block-scoped validator oracle that accepts every transaction list. -/
def zeroBlockOracle : List Transaction → ErrCode := fun _ => ErrNoError

/-- A coinbase transaction. -/
def txCBW : Transaction := ⟨.Coinbase, .OtherPayload 0⟩

/-- A second coinbase transaction. -/
def txCB2W : Transaction := ⟨.Coinbase, .OtherPayload 1⟩

/-- A non-coinbase transaction. -/
def txNCW : Transaction := ⟨.OtherTx 0, .OtherPayload 0⟩

/-- The spec §8 test vector for `Subscribe`. -/
def sW : Subscribe := ⟨[10, 11], [120], [116], 1, 2⟩

/-- A `SubscribeInfo` whose subscriber field `"zz"` is not valid hex. -/
def siBadW : SubscribeInfo := ⟨[122, 122], [105], [116], 1, 2⟩

/-! ## Codec lemmas -/

/-- Reading back a written varint recovers the value (for the one- and
two-byte-payload ranges, which cover every length this file serializes). -/
theorem ReadVarUint_WriteVarUint (n : Nat) (r : Bytes) (h : n ≤ 65535) :
    ReadVarUint (WriteVarUint n ++ r) = .ok (n, r) := by
  unfold WriteVarUint
  by_cases h1 : n < 253
  · rw [if_pos h1]
    show ReadVarUint (n :: r) = .ok (n, r)
    unfold ReadVarUint
    simp only []
    rw [if_pos h1]
  · rw [if_neg h1, if_pos h]
    show ReadVarUint (253 :: n % 256 :: n / 256 % 256 :: r) = .ok (n, r)
    have hn : n % 256 + n / 256 % 256 * 256 = n := by omega
    unfold ReadVarUint
    norm_num [hn]

/-- Reading exactly the length of a prefix returns that prefix. -/
theorem readFull_append (bs r : Bytes) :
    readFull bs.length (bs ++ r) = .ok (bs, r) := by
  induction bs with
  | nil => rfl
  | cons b t ih =>
    show readFull (t.length + 1) (b :: (t ++ r)) = .ok (b :: t, r)
    unfold readFull
    rw [ih]

/-- Varbytes round-trip: reading back a written byte-string recovers it. -/
theorem ReadVarBytes_WriteVarBytes (bs r : Bytes) (h : bs.length ≤ 65535) :
    ReadVarBytes (WriteVarBytes bs ++ r) = .ok (bs, r) := by
  unfold WriteVarBytes ReadVarBytes
  rw [List.append_assoc, ReadVarUint_WriteVarUint _ _ h]
  show (if bs.length > MaxVarBytesLen then Except.error SerErr.lengthTooLarge
        else readFull bs.length (bs ++ r)) = .ok (bs, r)
  rw [if_neg (by unfold MaxVarBytesLen; omega), readFull_append]

/-- Varstring round-trip, for a UTF-8-valid byte content. -/
theorem ReadVarString_WriteVarString (bs r : Bytes) (h : bs.length ≤ 65535)
    (hv : validUtf8 bs = true) :
    ReadVarString (WriteVarString bs ++ r) = .ok (bs, r) := by
  unfold ReadVarString WriteVarString
  rw [ReadVarBytes_WriteVarBytes _ _ h]
  simp only []
  rw [if_pos hv]

/-- Little-endian `u32` round-trip. -/
theorem ReadUint32_WriteUint32 (x : Nat) (r : Bytes) (h : x < 4294967296) :
    ReadUint32 (WriteUint32 x ++ r) = .ok (x, r) := by
  unfold WriteUint32 ReadUint32
  show Except.ok
      (x % 256 + x / 256 % 256 * 256 + x / 65536 % 256 * 65536 +
        x / 16777216 % 256 * 16777216, r) = .ok (x, r)
  have hx : x % 256 + x / 256 % 256 * 256 + x / 65536 % 256 * 65536 +
      x / 16777216 % 256 * 16777216 = x := by omega
  rw [hx]

/-- A nibble's hex character decodes back to the nibble. -/
theorem hexVal_hexChar (d : Nat) (h : d < 16) : hexVal (hexChar d) = some d := by
  interval_cases d <;> decide

/-- Hex round-trip: decoding an encoded byte-string recovers it. -/
theorem hexDecode_BytesToHexString (bs : Bytes) (h : ∀ b ∈ bs, b < 256) :
    hexDecode (BytesToHexString bs) = some bs := by
  induction bs with
  | nil => rfl
  | cons b t ih =>
    have hb : b < 256 := h b (List.mem_cons_self b t)
    have ht : ∀ x ∈ t, x < 256 := fun x hx => h x (List.mem_cons_of_mem b hx)
    show hexDecode
        (hexChar (b / 16) :: hexChar (b % 16) :: BytesToHexString t) =
      some (b :: t)
    unfold hexDecode
    rw [hexVal_hexChar _ (by omega), hexVal_hexChar _ (by omega), ih ht]
    simp only []
    have hbb : b / 16 * 16 + b % 16 = b := by omega
    rw [hbb]

/-- `HexStringToBytes` inverts `BytesToHexString`. -/
theorem HexStringToBytes_BytesToHexString (bs : Bytes)
    (h : ∀ b ∈ bs, b < 256) :
    HexStringToBytes (BytesToHexString bs) = (bs, true) := by
  unfold HexStringToBytes
  rw [hexDecode_BytesToHexString bs h]

/-- Claim C8: for every `Subscribe` value with `|subscriber| ≤ 64`,
`|identifier| ≤ 256` and `|topic| ≤ 256`, deserializing the binary
serialization yields a value `Equal` to the original (in fact identical,
with the stream fully consumed), and parsing the JSON marshalling yields
the original back. -/
theorem C8_subscribe_codec_roundtrip (s : Subscribe) (hwf : s.WF)
    (h1 : s.Subscriber.length ≤ 64) (h2 : s.Identifier.length ≤ 256)
    (h3 : s.Topic.length ≤ 256) :
    Subscribe.Deserialize (Subscribe.Serialize s) = .ok (s, []) ∧
      Subscribe.Equal s s = true ∧
      Subscribe.UnmarshalJson (Subscribe.MarshalJson s) = s := by
  obtain ⟨hsub, hid, htop, hbk, hdur⟩ := hwf
  refine ⟨?_, ?_, ?_⟩
  · unfold Subscribe.Serialize Subscribe.Deserialize
    rw [show WriteUint32 s.Duration = WriteUint32 s.Duration ++ [] from
      (List.append_nil _).symm]
    simp only [List.append_assoc]
    rw [ReadVarBytes_WriteVarBytes _ _ (by omega)]
    simp only []
    rw [ReadVarString_WriteVarString _ _ (by omega) hid]
    simp only []
    rw [ReadVarString_WriteVarString _ _ (by omega) htop]
    simp only []
    rw [ReadUint32_WriteUint32 _ _ hbk]
    simp only []
    rw [ReadUint32_WriteUint32 _ _ hdur]
  · unfold Subscribe.Equal
    simp
  · unfold Subscribe.MarshalJson Subscribe.UnmarshalJson
    rw [HexStringToBytes_BytesToHexString _ hsub]

/-- Claim C8 witness: the round trip evaluated at the spec §8 vector. -/
theorem C8_witness :
    Subscribe.Deserialize (Subscribe.Serialize sW) = .ok (sW, []) ∧
      Subscribe.Equal sW sW = true ∧
      Subscribe.UnmarshalJson (Subscribe.MarshalJson sW) = sW :=
  C8_subscribe_codec_roundtrip sW (by decide) (by decide) (by decide)
    (by decide)

/-- Claim C9: on a well-formed JSON document (modelled by its parsed
`SubscribeInfo`) whose subscriber field is not valid hex, `UnmarshalJson`
returns no error: it produces a `Subscribe` with the empty subscriber
byte-string, the remaining four fields taken from the JSON verbatim. -/
theorem C9_lenient_hex (si : SubscribeInfo)
    (h : hexDecode si.Subscriber = none) :
    Subscribe.UnmarshalJson si =
      ⟨[], si.Identifier, si.Topic, si.Bucket, si.Duration⟩ := by
  unfold Subscribe.UnmarshalJson HexStringToBytes
  rw [h]

/-- Claim C9 witness: the lenient decode evaluated on the subscriber
string `"zz"`. -/
theorem C9_witness :
    Subscribe.UnmarshalJson siBadW = ⟨[], [105], [116], 1, 2⟩ :=
  C9_lenient_hex siBadW rfl

/-! ## Transaction check theorems -/

/-- Claim C1: the source returns the empty-block error only for a nil
transaction slice; a non-nil empty slice passes the `== nil` test and the
subsequent `block.Transactions[0]` indexing panics out of range, so the
claim's in-particular part (no out-of-bounds access on a non-nil empty
slice) fails on the code. -/
theorem C1_empty_block_outcomes :
    TransactionCheck zeroOracle zeroOracle zeroBlockOracle
        ⟨gbHeaderW, none⟩ = .goError "empty block" ∧
      TransactionCheck zeroOracle zeroOracle zeroBlockOracle
        ⟨gbHeaderW, some []⟩ = .goPanic "runtime error: index out of range" :=
  ⟨rfl, rfl⟩

/-- If every transaction in `l` passes both per-transaction oracles and
some transaction in `l` is a coinbase, the check loop started at a
non-zero index fails with the duplicate-coinbase error. -/
theorem TransactionCheckLoop_duplicate
    (v vl : Transaction → ErrCode) (l : List Transaction) (i : Nat)
    (hi : i ≠ 0)
    (hall : ∀ t ∈ l, v t = ErrNoError ∧ vl t = ErrNoError)
    (hex : ∃ t ∈ l, t.TxType = .Coinbase) :
    TransactionCheckLoop v vl i l =
      .goError "Coinbase transaction order is incorrect" := by
  induction l generalizing i with
  | nil => obtain ⟨t, ht, _⟩ := hex; cases ht
  | cons a t ih =>
    unfold TransactionCheckLoop
    by_cases ha : a.TxType = .Coinbase
    · rw [if_pos ⟨hi, ha⟩]
    · rw [if_neg (fun hc => ha hc.2)]
      obtain ⟨hv, hvl⟩ := hall a (List.mem_cons_self a t)
      rw [if_neg (by simp [hv]), if_neg (by simp [hvl])]
      refine ih (i + 1) (by omega)
        (fun x hx => hall x (List.mem_cons_of_mem a hx)) ?_
      obtain ⟨x, hx, hcx⟩ := hex
      rcases List.mem_cons.mp hx with hxa | hxt
      · exact absurd (hxa ▸ hcx) ha
      · exact ⟨x, hxt, hcx⟩

/-- Claim C6 (amended): coinbase exclusivity.  When the first transaction
is a coinbase, every transaction passes the per-transaction oracles and a
coinbase sits at some later index, `TransactionCheck` fails with the
duplicate-coinbase error; when the (non-empty) list's first transaction is
not a coinbase, it fails with the missing-coinbase error. -/
theorem C6_coinbase_exclusivity (v vl : Transaction → ErrCode)
    (vb : List Transaction → ErrCode) (hdr : Header) (t0 : Transaction)
    (rest : List Transaction) :
    (t0.TxType = .Coinbase →
      (∀ t ∈ t0 :: rest, v t = ErrNoError ∧ vl t = ErrNoError) →
      (∃ t ∈ rest, t.TxType = .Coinbase) →
      TransactionCheck v vl vb ⟨hdr, some (t0 :: rest)⟩ =
        .goError "Coinbase transaction order is incorrect") ∧
    (t0.TxType ≠ .Coinbase →
      TransactionCheck v vl vb ⟨hdr, some (t0 :: rest)⟩ =
        .goError "first transaction in block is not Coinbase") := by
  constructor
  · intro h0 hall hex
    unfold TransactionCheck
    simp only []
    rw [if_neg (by simp [h0])]
    unfold TransactionCheckLoop
    rw [if_neg (by simp)]
    obtain ⟨hv, hvl⟩ := hall t0 (List.mem_cons_self t0 rest)
    rw [if_neg (by simp [hv]), if_neg (by simp [hvl])]
    rw [TransactionCheckLoop_duplicate v vl rest 1 (by omega)
      (fun x hx => hall x (List.mem_cons_of_mem t0 hx)) hex]
  · intro h0
    unfold TransactionCheck
    simp only []
    rw [if_pos h0]

/-- Claim C6 counterexample: a block whose transaction at index `1` is a
coinbase but whose first transaction is not fails with the
missing-coinbase error, not the duplicate-coinbase error the claim states
for every block with a coinbase at a positive index. -/
theorem C6_counterexample :
    txCBW.TxType = .Coinbase ∧
      TransactionCheck zeroOracle zeroOracle zeroBlockOracle
          ⟨gbHeaderW, some [txNCW, txCBW]⟩ =
        .goError "first transaction in block is not Coinbase" :=
  ⟨rfl, rfl⟩

/-- Claim C6 witness: the amended statement evaluated on a block
`[coinbase, coinbase]` with trivial oracles. -/
theorem C6_witness :
    TransactionCheck zeroOracle zeroOracle zeroBlockOracle
        ⟨gbHeaderW, some [txCBW, txCB2W]⟩ =
      .goError "Coinbase transaction order is incorrect" :=
  (C6_coinbase_exclusivity zeroOracle zeroOracle zeroBlockOracle gbHeaderW
      txCBW [txCB2W]).1 rfl (fun _ _ => ⟨rfl, rfl⟩)
    ⟨txCB2W, List.mem_cons_self txCB2W [], rfl⟩

/-! ## Timestamp check theorem -/

/-- Claim C7: `TimestampCheck` succeeds exactly when the timestamp is
within `TimestampTolerance` (40 s) of the clock, and the boundary cases
behave as stated: `now - 40` and `now + 40` pass, `now - 41` and
`now + 41` fail (the source produces a single tolerance error for both the
stale and the future side). -/
theorem C7_timestamp_tolerance (now ts : Int) :
    (TimestampCheck now ts = .ok () ↔ |ts - now| ≤ TimestampTolerance) ∧
      TimestampCheck now (now - 40) = .ok () ∧
      TimestampCheck now (now - 41) =
        .error "timestamp exceed my tolerance" ∧
      TimestampCheck now (now + 40) = .ok () ∧
      TimestampCheck now (now + 41) =
        .error "timestamp exceed my tolerance" := by
  unfold TimestampCheck TimestampTolerance
  refine ⟨?_, ?_, ?_, ?_, ?_⟩
  · constructor
    · intro hok
      by_cases hc : ts < now - 40 ∨ ts > now + 40
      · rw [if_pos hc] at hok; cases hok
      · rw [abs_le]; omega
    · intro habs
      rw [abs_le] at habs
      rw [if_neg (by omega)]
  · rw [if_neg (by omega)]
  · rw [if_pos (by omega)]
  · rw [if_neg (by omega)]
  · rw [if_pos (by omega)]

/-! ## Proposer election theorems -/

/-- Claim C3: whenever the election takes the fallback path
(`timeDiff ≥ timeSlot`) and returns a signer, that signer is the one of
the block stored at the frozen snapshot height `0`, for every chain view,
predecessor, and time difference. -/
theorem C3_fallback_snapshot_signer (env : ChainEnv) (prevHeader : Header)
    (genesisBlock : Block) (timeDiff timeSlot : Int) (pc : Bytes × Bytes)
    (hge : timeDiff ≥ timeSlot)
    (hok : ProposerElection env prevHeader genesisBlock timeDiff timeSlot =
      .ok pc) :
    ∃ bh b, env.GetBlockHash 0 = .ok bh ∧ env.GetBlock bh = .ok b ∧
      env.GetSigner b = .ok pc := by
  unfold ProposerElection at hok
  rw [if_pos hge] at hok
  cases h1 : env.GetBlockHash 0 with
  | error e => rw [h1] at hok; cases hok
  | ok bh =>
    rw [h1] at hok
    simp only [] at hok
    cases h2 : env.GetBlock bh with
    | error e => rw [h2] at hok; cases hok
    | ok b =>
      rw [h2] at hok
      simp only [] at hok
      cases h3 : env.GetSigner b with
      | error e => rw [h3] at hok; cases hok
      | ok pc2 =>
        rw [h3] at hok
        simp only [] at hok
        injection hok with hpc
        exact ⟨bh, b, rfl, h2, by rw [h3, hpc]⟩

/-- Claim C3 witness: the fallback election on the concrete chain view
returns the concrete genesis signer. -/
theorem C3_witness :
    ∃ bh b, envW.GetBlockHash 0 = .ok bh ∧ envW.GetBlock bh = .ok b ∧
      envW.GetSigner b = .ok ([1], [4]) :=
  C3_fallback_snapshot_signer envW prevTxnW gbW 120 60 ([1], [4])
    (by norm_num) rfl

/-- Claim C10: in the normal-path `TxnSigner` election with a `Commit`
payload, the sigchain decode error is discarded: when the bytes fail to
decode, the election proceeds on the zero-valued sigchain, and any failure
of this phase is exactly a propagated `GetMiner` failure on the
decoded-or-zero sigchain (never a decode error). -/
theorem C10_sigchain_decode_discarded (env : ChainEnv)
    (prevHeader : Header) (genesisBlock : Block) (timeDiff timeSlot : Int)
    (txn : Transaction) (scBytes : Bytes)
    (hlt : timeDiff < timeSlot)
    (hwt : prevHeader.WinnerType = .TxnSigner)
    (htx : env.GetTransaction prevHeader.WinnerHash = .ok txn)
    (hpl : txn.Payload = .Commit scBytes) :
    (env.protoUnmarshal scBytes = none →
      ProposerElection env prevHeader genesisBlock timeDiff timeSlot =
        match env.GetMiner SigChain.zero with
        | .error e => .error (.propagated e)
        | .ok pc => .ok pc) ∧
    (∀ e, ProposerElection env prevHeader genesisBlock timeDiff timeSlot =
        .error e →
      ∃ ge, e = .propagated ge ∧
        env.GetMiner ((env.protoUnmarshal scBytes).getD SigChain.zero) =
          .error ge) := by
  have hred : ProposerElection env prevHeader genesisBlock timeDiff
      timeSlot =
      match env.GetMiner ((env.protoUnmarshal scBytes).getD SigChain.zero)
        with
      | .error e => .error (.propagated e)
      | .ok pc => .ok pc := by
    unfold ProposerElection
    rw [if_neg (by omega), hwt]
    simp only []
    rw [htx]
    simp only []
    rw [hpl]
  constructor
  · intro hnone
    rw [hred, hnone]
    exact rfl
  · intro e he
    rw [hred] at he
    cases hm : env.GetMiner ((env.protoUnmarshal scBytes).getD
        SigChain.zero) with
    | error ge =>
      rw [hm] at he
      simp only [] at he
      injection he with hee
      exact ⟨ge, hee.symm, rfl⟩
    | ok pc =>
      rw [hm] at he
      cases he

/-- Claim C10 witness: on the concrete chain view, the commit transaction
at hash `9` carries sigchain bytes `[13]` that fail to decode, and the
election nevertheless succeeds with the miner of the zero sigchain. -/
theorem C10_witness :
    ProposerElection envW prevTxn9W gbW 0 60 =
      match envW.GetMiner SigChain.zero with
      | .error e => .error (.propagated e)
      | .ok pc => .ok pc :=
  (C10_sigchain_decode_discarded envW prevTxn9W gbW 0 60 txnCommit13W [13]
      (by norm_num) rfl rfl rfl).1 rfl

/-- The election never produces the invalid-winner-type error: its only
error outcomes are propagated storage/crypto failures and the
invalid-transaction-type error of the `Commit` type assertion. -/
theorem ProposerElection_ne_invalidWinnerType (env : ChainEnv) (p : Header)
    (g : Block) (td ts : Int) :
    ProposerElection env p g td ts ≠ .error .invalidWinnerType := by
  intro hc
  unfold ProposerElection at hc
  by_cases hge : td ≥ ts
  · rw [if_pos hge] at hc
    cases h1 : env.GetBlockHash 0 with
    | error e => rw [h1] at hc; simp at hc
    | ok bh =>
      rw [h1] at hc; simp only [] at hc
      cases h2 : env.GetBlock bh with
      | error e => rw [h2] at hc; simp at hc
      | ok b =>
        rw [h2] at hc; simp only [] at hc
        cases h3 : env.GetSigner b with
        | error e => rw [h3] at hc; simp at hc
        | ok pc => rw [h3] at hc; simp at hc
  · rw [if_neg hge] at hc
    cases hw : p.WinnerType with
    | GenesisSigner =>
      rw [hw] at hc; simp only [] at hc
      cases h3 : env.GetSigner g with
      | error e => rw [h3] at hc; simp at hc
      | ok pc => rw [h3] at hc; simp at hc
    | TxnSigner =>
      rw [hw] at hc; simp only [] at hc
      cases h4 : env.GetTransaction p.WinnerHash with
      | error e => rw [h4] at hc; simp at hc
      | ok txn =>
        rw [h4] at hc; simp only [] at hc
        cases h5 : txn.Payload with
        | Commit sc =>
          rw [h5] at hc; simp only [] at hc
          cases h6 : env.GetMiner
              ((env.protoUnmarshal sc).getD SigChain.zero) with
          | error e => rw [h6] at hc; simp at hc
          | ok pc => rw [h6] at hc; simp at hc
        | OtherPayload k => rw [h5] at hc; simp at hc
    | Other k => rw [hw] at hc; simp at hc

/-- Claim C5: once a header has passed the continuity and timestamp
phases, `HeaderCheck` fails with the invalid-winner-type error exactly
when the header's winner-type is `GenesisSigner` and its height is at
least `GenesisBlockProposedHeight` (= 4). -/
theorem C5_winner_type_domain (env : ChainEnv) (header prevHeader : Header)
    (receiveTime : Int)
    (h0 : header.Height ≠ 0)
    (h1 : env.GetHeader header.PrevBlockHash = .ok (some prevHeader))
    (h2 : (prevHeader.Height + 1) % 4294967296 = header.Height)
    (h3 : header.Timestamp ≤ env.now + TimestampTolerance)
    (h4 : prevHeader.Timestamp < header.Timestamp) :
    HeaderCheck env header receiveTime = .error .invalidWinnerType ↔
      header.WinnerType = .GenesisSigner ∧
        header.Height ≥ GenesisBlockProposedHeight := by
  unfold HeaderCheck
  rw [if_neg h0, h1]
  simp only []
  rw [if_neg (by omega), if_neg (not_lt.mpr h3), if_neg (not_le.mpr h4)]
  by_cases h5 : header.WinnerType = .GenesisSigner ∧
      header.Height ≥ GenesisBlockProposedHeight
  · rw [if_pos h5]
    exact iff_of_true rfl h5
  · rw [if_neg h5]
    refine iff_of_false ?_ h5
    intro hc
    cases hbh : env.GetBlockHash 0 with
    | error e => rw [hbh] at hc; simp at hc
    | ok gh =>
      rw [hbh] at hc; simp only [] at hc
      cases hgb : env.GetBlock gh with
      | error e => rw [hgb] at hc; simp at hc
      | ok gb =>
        rw [hgb] at hc; simp only [] at hc
        cases hbt : env.GetBlockTime header.PrevBlockHash with
        | error e => rw [hbt] at hc; simp at hc
        | ok pts =>
          rw [hbt] at hc; simp only [] at hc
          cases hel : ProposerElection env prevHeader gb
              (if pts = gb.Header.Timestamp then 0
               else receiveTime - pts) env.ProposerChangeTime with
          | error e =>
            rw [hel] at hc
            simp only [] at hc
            injection hc with he
            exact ProposerElection_ne_invalidWinnerType env prevHeader gb
              _ _ (by rw [hel, he])
          | ok pc =>
            rw [hel] at hc
            obtain ⟨pk, cid⟩ := pc
            simp only [] at hc
            by_cases hs : pk ≠ header.Signer
            · rw [if_pos hs] at hc; simp at hc
            · rw [if_neg hs] at hc
              cases hdp : env.DecodePoint pk with
              | error e => rw [hdp] at hc; simp at hc
              | ok rp =>
                rw [hdp] at hc; simp only [] at hc
                cases hv : env.Verify rp (env.GetHashForSigning header)
                    header.Signature with
                | error e => rw [hv] at hc; simp at hc
                | ok u => rw [hv] at hc; simp at hc

/-- Claim C5 witness: on the concrete chain view, the height-4 candidate
with winner-type `GenesisSigner` fails with the invalid-winner-type
error (and, by the theorem's reverse direction, a height-3 candidate
cannot fail this way). -/
theorem C5_witness :
    HeaderCheck envW hdrC5W 130 = .error .invalidWinnerType :=
  (C5_winner_type_domain envW hdrC5W prevH3W 130 (by decide) rfl
      (by decide) (by decide) (by decide)).mpr ⟨rfl, by decide⟩

/-- Claim C2 (amended): under the claim's scenario — predecessor at
height 2 whose stored timestamp equals the genesis timestamp,
`receive_time - prev_timestamp = 120`, `time_slot = 60` — and with the
predecessor's winner-type being `GenesisSigner`, the election defines
`time_diff = 0` (the genesis-timestamp special case), takes the normal
path, and expects the signer of the genesis block (the block at height
0); a candidate signed by anyone else is rejected. -/
theorem C2_genesis_timestamp_normal_path (env : ChainEnv)
    (header prevHeader : Header) (receiveTime : Int) (gh : Hash)
    (gb : Block) (pk cid : Bytes)
    (h0 : header.Height ≠ 0)
    (h1 : env.GetHeader header.PrevBlockHash = .ok (some prevHeader))
    (hph : prevHeader.Height = 2)
    (h2 : (prevHeader.Height + 1) % 4294967296 = header.Height)
    (h3 : header.Timestamp ≤ env.now + TimestampTolerance)
    (h4 : prevHeader.Timestamp < header.Timestamp)
    (hbh : env.GetBlockHash 0 = .ok gh)
    (hgb : env.GetBlock gh = .ok gb)
    (hbt : env.GetBlockTime header.PrevBlockHash = .ok gb.Header.Timestamp)
    (_hrt : receiveTime - gb.Header.Timestamp = 120)
    (hslot : env.ProposerChangeTime = 60)
    (hwt : prevHeader.WinnerType = .GenesisSigner)
    (hsig : env.GetSigner gb = .ok (pk, cid))
    (hne : header.Signer ≠ pk) :
    HeaderCheck env header receiveTime =
      .error (.invalidSigner header.Signer) := by
  have h5 : ¬(header.WinnerType = .GenesisSigner ∧
      header.Height ≥ GenesisBlockProposedHeight) := by
    intro hcon
    have := hcon.2
    unfold GenesisBlockProposedHeight at this
    omega
  have hElect : ProposerElection env prevHeader gb 0
      env.ProposerChangeTime = .ok (pk, cid) := by
    unfold ProposerElection
    rw [hslot, if_neg (by norm_num : ¬(0 : Int) ≥ 60), hwt]
    simp only []
    rw [hsig]
  unfold HeaderCheck
  rw [if_neg h0, h1]
  simp only []
  rw [if_neg (by omega), if_neg (not_lt.mpr h3), if_neg (not_le.mpr h4),
    if_neg h5, hbh]
  simp only []
  rw [hgb]
  simp only []
  rw [hbt]
  simp only []
  rw [if_pos trivial, hElect]
  simp only []
  rw [if_pos (Ne.symm hne)]

/-- Claim C2 counterexample: in exactly the claim's scenario (predecessor
at height 2, stored predecessor timestamp equal to the genesis timestamp
10, `receive_time - prev_timestamp = 130 - 10 = 120`, `time_slot = 60`),
the predecessor's winner-type is `TxnSigner`, the genesis signer is `[1]`,
and a candidate signed `[2]` — not the signer of the block at height 0 —
is accepted by `HeaderCheck`. -/
theorem C2_counterexample :
    envW.GetHeader 1 = .ok (some prevTxnW) ∧ prevTxnW.Height = 2 ∧
      envW.GetBlockHash 0 = .ok 5 ∧ envW.GetBlock 5 = .ok gbW ∧
      envW.GetBlockTime 1 = .ok 10 ∧ gbW.Header.Timestamp = 10 ∧
      envW.ProposerChangeTime = 60 ∧
      envW.GetSigner gbW = .ok ([1], [4]) ∧ hdrC2W.Signer = [2] ∧
      HeaderCheck envW hdrC2W 130 = .ok () :=
  ⟨rfl, rfl, rfl, rfl, rfl, rfl, rfl, rfl, rfl, rfl⟩

/-- Claim C2 witness: the amended statement evaluated on the concrete
chain view, with a `GenesisSigner` predecessor and a candidate signed
`[2]` instead of the genesis signer `[1]`. -/
theorem C2_witness :
    HeaderCheck envW hdrC2aW 130 = .error (.invalidSigner [2]) :=
  C2_genesis_timestamp_normal_path envW hdrC2aW prevGenW 130 5 gbW [1] [4]
    (by decide) rfl rfl (by decide) (by decide) (by decide) rfl rfl rfl
    (by decide) rfl rfl rfl (by decide)

/-- Claim C4 (amended): in the normal election path, when the
predecessor's winner-type is neither `GenesisSigner` nor `TxnSigner`,
`HeaderCheck` does not fail with the invalid-winner-type error: the
source's `switch` has no default case, the expected public key stays at
its empty zero value, and the check fails at the signer comparison with
the invalid-signer error whenever the candidate's signer is non-empty. -/
theorem C4_unknown_winner_type_falls_through (env : ChainEnv)
    (header prevHeader : Header) (receiveTime : Int) (gh : Hash)
    (gb : Block) (pts : Int) (n : Nat)
    (h0 : header.Height ≠ 0)
    (h1 : env.GetHeader header.PrevBlockHash = .ok (some prevHeader))
    (h2 : (prevHeader.Height + 1) % 4294967296 = header.Height)
    (h3 : header.Timestamp ≤ env.now + TimestampTolerance)
    (h4 : prevHeader.Timestamp < header.Timestamp)
    (h5 : ¬(header.WinnerType = .GenesisSigner ∧
      header.Height ≥ GenesisBlockProposedHeight))
    (hbh : env.GetBlockHash 0 = .ok gh)
    (hgb : env.GetBlock gh = .ok gb)
    (hbt : env.GetBlockTime header.PrevBlockHash = .ok pts)
    (htd : (if pts = gb.Header.Timestamp then 0 else receiveTime - pts) <
      env.ProposerChangeTime)
    (hwt : prevHeader.WinnerType = .Other n)
    (hsg : header.Signer ≠ []) :
    HeaderCheck env header receiveTime =
      .error (.invalidSigner header.Signer) := by
  have hElect : ProposerElection env prevHeader gb
      (if pts = gb.Header.Timestamp then 0 else receiveTime - pts)
      env.ProposerChangeTime = .ok ([], []) := by
    unfold ProposerElection
    rw [if_neg (not_le.mpr htd), hwt]
  unfold HeaderCheck
  rw [if_neg h0, h1]
  simp only []
  rw [if_neg (by omega), if_neg (not_lt.mpr h3), if_neg (not_le.mpr h4),
    if_neg h5, hbh]
  simp only []
  rw [hgb]
  simp only []
  rw [hbt]
  simp only []
  rw [hElect]
  simp only []
  rw [if_pos (Ne.symm hsg)]

/-- Claim C4 counterexample: on the concrete chain view the predecessor's
winner-type is the unlisted tag `Other 5`, and `HeaderCheck` fails with
the invalid-signer error, not the invalid-winner-type error the claim
states. -/
theorem C4_counterexample :
    prevOtherW.WinnerType = .Other 5 ∧
      HeaderCheck envW hdrC4W 130 = .error (.invalidSigner [1]) ∧
      HeaderCheck envW hdrC4W 130 ≠ .error .invalidWinnerType :=
  ⟨rfl, rfl, by
    rw [show HeaderCheck envW hdrC4W 130 = .error (.invalidSigner [1])
      from rfl]
    simp⟩

/-- Claim C4 witness: the amended statement evaluated on the concrete
chain view (unknown winner-type `Other 5`, candidate signer `[1]`). -/
theorem C4_witness :
    HeaderCheck envW hdrC4W 130 = .error (.invalidSigner [1]) :=
  C4_unknown_winner_type_falls_through envW hdrC4W prevOtherW 130 5 gbW 10
    5 (by decide) rfl (by decide) (by decide) (by decide) (by decide) rfl
    rfl rfl (by decide) rfl (by decide)

end NKN
